import Mathlib

/-!
# Verification of the `ntil` retry engine

Shallow embedding of `src/ntil.js`: a retry orchestration engine that wraps
an asynchronous "performer" so that it is retried with exponential backoff
until a "checker" predicate accepts the result, or a maximum attempt count
is exhausted.

Modelling conventions:
* JavaScript runtime values that flow through the checker / performer /
  callbacks are modelled by `JSVal` (undefined, null, booleans, numbers as
  rationals, strings).  JS numbers are embedded as `ℚ`; the backoff
  arithmetic of the source (`wait * 1000`, `wait *= waitMult`) is exact on
  the values the engine manipulates.
* The per-invocation closure state (`wait`, `calls` in the source) is the
  record `SeqState`; the continuation `next` (src/ntil.js lines 152-170)
  becomes a pure step function returning the updated state together with
  the list of observable events it emits (log calls, `setTimeout`
  scheduling, success/failure callback invocations).
* Log calls are recorded as structured events carrying exactly the data
  the source interpolates into the message string (name, failure count,
  wait) rather than the rendered string, one event constructor per
  `logger.info` / `logger.warn` call site.
* The dual-mode constructor `ntil` (src/ntil.js lines 137-145) and the
  fluent builder `chain` (lines 127-135) are embedded directly; JS
  `x || default` on option fields is `jsOrNum` / `jsOrStr` (falsy values
  `0` and `""` take the default, like absent fields).
-/

/-- A JavaScript runtime value, as far as the engine observes them.
Numbers are modelled as rationals. -/
inductive JSVal where
  | undef
  | null
  | bool (b : Bool)
  | num (q : ℚ)
  | str (s : String)
deriving DecidableEq, Repr

/-- JS truthiness of a `JSVal` (`false`, `0`, `""`, `null`, `undefined`
are falsy, everything else truthy). -/
def truthy : JSVal → Bool
  | .undef => false
  | .null => false
  | .bool b => b
  | .num q => q != 0
  | .str s => s != ""

/-- The checker callback: a JS function from the positional result values
to a JS value (the engine compares its result to `true` by strict
identity, src/ntil.js line 154). -/
def Checker : Type := List JSVal → JSVal

/-- A success/failure callback: applied to the positional result values;
its return value is ignored by the engine. -/
def Callback : Type := List JSVal → JSVal

/-- The performer as a value: the engine itself only reads its `name`
property (src/ntil.js line 141); its behaviour is supplied externally as
per-attempt outcomes (`PerfResult`). A JS anonymous function has
`name == ""`. -/
structure Performer where
  pname : String
deriving DecidableEq, Repr

/-- The options hash `opts` (src/ntil.js lines 110-117): every field is
optional; `logger` is modelled by whether a truthy logger was supplied. -/
structure OptsObj where
  name : Option String := none
  logger : Bool := false
  waitSecs : Option ℚ := none
  waitMult : Option ℚ := none
  maxCalls : Option ℚ := none
deriving DecidableEq, Repr

/-- JS `v || d` for an optional numeric option field: absent (`undefined`)
or falsy (`0`) takes the default (src/ntil.js lines 143-145). -/
def jsOrNum (v : Option ℚ) (d : ℚ) : ℚ :=
  match v with
  | none => d
  | some q => if q = 0 then d else q

/-- JS `v || d` for an optional string option field: absent or falsy
(`""`) takes the default (src/ntil.js line 141). -/
def jsOrStr (v : Option String) (d : String) : String :=
  match v with
  | none => d
  | some s => if s = "" then d else s

/-- The handler closure produced by `ntil` on the direct path: exactly the
values captured by the returned function (src/ntil.js lines 141-147). -/
structure Handler where
  checker : Checker
  performer : Performer
  success : Option Callback
  failure : Option Callback
  name : String
  logger : Bool
  waitSecs : ℚ
  waitMult : ℚ
  maxCalls : ℚ

/-- Resolution of the handler configuration from the raw arguments
(src/ntil.js lines 141-145): `name = opts.name || performer.name ||
'anonymous function'`, `waitSecs = opts.waitSecs || 1`,
`waitMult = opts.waitMult || 2`, `maxCalls = opts.maxCalls || 7`. -/
def buildHandler (c : Checker) (p : Performer) (s f : Option Callback)
    (o : OptsObj) : Handler :=
  { checker := c
    performer := p
    success := s
    failure := f
    name := jsOrStr o.name (jsOrStr (some p.pname) "anonymous function")
    logger := o.logger
    waitSecs := jsOrNum o.waitSecs 1
    waitMult := jsOrNum o.waitMult 2
    maxCalls := jsOrNum o.maxCalls 7 }

/-- Per-invocation mutable closure state of the handler
(src/ntil.js lines 148-150): `wait` starts at `waitSecs`, `calls` at 0. -/
structure SeqState where
  wait : ℚ
  calls : ℕ
deriving DecidableEq, Repr

/-- Initial `AttemptState` of one handler invocation
(src/ntil.js lines 148-150). -/
def initState (h : Handler) : SeqState :=
  { wait := h.waitSecs, calls := 0 }

/-- Observable events emitted by the engine, one constructor per
side-effecting call site of src/ntil.js:
* `infoSuccess name` — `logger.info(name + ': success')` (line 155);
* `callSuccess r` — `success.apply(success, result)` (line 156);
* `warnRetry name calls wait` — the retry warning of line 160 (message
  interpolates `calls` and the pre-multiplication `wait`);
* `schedule ms` — `setTimeout(function(){ invoke() }, wait * 1000)`
  (lines 161-163), payload in milliseconds;
* `warnExhaust name calls` — `logger.warn(name + ': too many failures
  (' + calls + ')')` (line 166);
* `callFailure r` — `failure.apply(failure, result)` (line 167);
* `warnException name desc` — `logger.warn(name + ': exception "' + e +
  '"')` (line 176);
* `performCall args` — `performer.apply(performer, args)` (line 174). -/
inductive Event where
  | infoSuccess (name : String)
  | callSuccess (result : List JSVal)
  | warnRetry (name : String) (calls : ℕ) (wait : ℚ)
  | schedule (ms : ℚ)
  | warnExhaust (name : String) (calls : ℕ)
  | callFailure (result : List JSVal)
  | warnException (name : String) (desc : String)
  | performCall (args : List JSVal)
deriving DecidableEq, Repr

/-- The continuation `next` (src/ntil.js lines 152-170), as a pure step
on the closure state.  `result` is the list of positional values the
performer passed to `next`.  Acceptance is the strict-identity comparison
`checker.apply(checker, result) === true`; otherwise `calls` is
incremented, and either a retry is scheduled after the *current* `wait`
(which is multiplied by `waitMult` only afterwards, line 164), or the
sequence is exhausted. -/
def next (h : Handler) (st : SeqState) (result : List JSVal) :
    SeqState × List Event :=
  if h.checker result = JSVal.bool true then
    (st,
      (if h.logger then [Event.infoSuccess h.name] else []) ++
      (if h.success.isSome then [Event.callSuccess result] else []))
  else
    let calls := st.calls + 1
    if ((calls : ℕ) : ℚ) < h.maxCalls then
      ({ wait := st.wait * h.waitMult, calls := calls },
        (if h.logger then [Event.warnRetry h.name calls st.wait] else []) ++
        [Event.schedule (st.wait * 1000)])
    else
      ({ st with calls := calls },
        (if h.logger then [Event.warnExhaust h.name calls] else []) ++
        (if h.failure.isSome then [Event.callFailure result] else []))

/-- Outcome of one performer attempt, supplied externally: the performer
either (eventually) calls `next` with some result values, or raises
synchronously with a description. -/
inductive PerfResult where
  | completes (result : List JSVal)
  | throws (desc : String)
deriving DecidableEq, Repr

/-- `invoke` (src/ntil.js lines 172-179) together with the attempt's
eventual completion: the performer is applied to the captured arguments
(`performCall`); a synchronous exception is caught, logged as a warning,
and the continuation is invoked with no result values (`next()`),
otherwise the completion drives `next` with the performer's results. -/
def invoke (h : Handler) (args : List JSVal) (st : SeqState)
    (p : PerfResult) : SeqState × List Event :=
  match p with
  | .completes r =>
      ((next h st r).1, Event.performCall args :: (next h st r).2)
  | .throws d =>
      ((next h st []).1,
        Event.performCall args ::
        (if h.logger then [Event.warnException h.name d] else []) ++
        (next h st []).2)

/-- Fold of `next` over a list of completion results: the engine's
bookkeeping when the continuation is called once per element of `rs`
(each call processed independently, exactly as in the source — the
closure holds no terminal flag). -/
def runNexts (h : Handler) (st : SeqState) :
    List (List JSVal) → SeqState × List Event
  | [] => (st, [])
  | r :: rs =>
      ((runNexts h (next h st r).1 rs).1,
        (next h st r).2 ++ (runNexts h (next h st r).1 rs).2)

/-- Fold of `invoke` over a list of per-attempt performer outcomes. -/
def runAttempts (h : Handler) (args : List JSVal) (st : SeqState) :
    List PerfResult → SeqState × List Event
  | [] => (st, [])
  | p :: ps =>
      ((runAttempts h args (invoke h args st p).1 ps).1,
        (invoke h args st p).2 ++
        (runAttempts h args (invoke h args st p).1 ps).2)

/-- The milliseconds payloads of the `setTimeout` calls in a trace. -/
def scheduledMs (evs : List Event) : List ℚ :=
  evs.filterMap fun e =>
    match e with
    | .schedule q => some q
    | _ => none

/-- The argument lists of the success-callback invocations in a trace. -/
def successCalls (evs : List Event) : List (List JSVal) :=
  evs.filterMap fun e =>
    match e with
    | .callSuccess r => some r
    | _ => none

/-- The argument lists of the failure-callback invocations in a trace. -/
def failureCalls (evs : List Event) : List (List JSVal) :=
  evs.filterMap fun e =>
    match e with
    | .callFailure r => some r
    | _ => none

/-- The failure counts of the "too many failures" warnings in a trace. -/
def exhaustWarns (evs : List Event) : List ℕ :=
  evs.filterMap fun e =>
    match e with
    | .warnExhaust _ n => some n
    | _ => none

/-- Discriminates the exception-warning events (src/ntil.js line 176). -/
def isExceptionWarn : Event → Bool
  | .warnException _ _ => true
  | _ => false

/-- A trace with the exception-warning events removed. -/
def dropExceptionWarns (evs : List Event) : List Event :=
  evs.filter fun e => !(isExceptionWarn e)

/-- The first (non-callable) argument position of `ntil` when the checker
slot does not hold a function. -/
inductive CheckerArg where
  | fn (c : Checker)
  | notFn (v : JSVal)

/-- The second argument of `ntil`: either a callable performer, or a
non-callable value (an options object, or `undefined` modelled by
`none`) that the dual-mode entry point reinterprets. -/
inductive PerfArg where
  | fn (p : Performer)
  | notFn (v : Option OptsObj)

/-- The fluent builder `chain` (src/ntil.js lines 127-135): an object
holding the fixed checker, the closed-over `opts` variable (seeded from
the constructor's second argument), and the `perform` / `success` /
`failure` slots, all initially unset.  The JS setters mutate one builder
instance and return `this`; here mutation is state threading. -/
structure chain where
  checker : Checker
  copts : Option OptsObj
  perform : Option Performer
  success : Option Callback
  failure : Option Callback

/-- `this.opts = function(options) { opts = options; return this }`
(src/ntil.js line 128). -/
def chain.opts (c : chain) (o : Option OptsObj) : chain :=
  { c with copts := o }

/-- `this.exec = function(perform) { this.perform = perform; return this }`
(src/ntil.js line 129). -/
def chain.exec (c : chain) (p : Performer) : chain :=
  { c with perform := some p }

/-- `this.done = function(success) { this.success = success; return this }`
(src/ntil.js line 130). -/
def chain.done (c : chain) (s : Callback) : chain :=
  { c with success := some s }

/-- `this.fail = function(failure) { this.failure = failure; return this }`
(src/ntil.js line 131). -/
def chain.fail (c : chain) (f : Callback) : chain :=
  { c with failure := some f }

/-- `new chain(checker, opts)` (src/ntil.js line 127): a fresh builder
seeded with the checker and the raw second argument in the options slot;
the `perform`/`success`/`failure` slots start unset. -/
def chain.new (c : Checker) (v : Option OptsObj) : chain :=
  { checker := c, copts := v, perform := none, success := none,
    failure := none }

/-- The construction-time error string thrown when the checker is not
callable (src/ntil.js line 125). -/
def sig : String :=
  "Check params: function ntil(checker, performer, success, failure, opts)"

/-- Result of calling `ntil`: a handler, a builder, or a thrown error. -/
inductive NtilResult where
  | handler (h : Handler)
  | builder (c : chain)
  | err (msg : String)

/-- The dual-mode entry point `ntil` (src/ntil.js lines 137-145):
`opts = opts || {}`; a non-callable checker throws `sig`; a non-callable
performer returns `new chain(checker, performer)` (the second argument
seeds the builder's options slot, the `success`/`failure`/`opts`
arguments are dropped); otherwise the handler closure is built. -/
def ntil (checker : CheckerArg) (performer : PerfArg)
    (success failure : Option Callback) (opts : Option OptsObj) :
    NtilResult :=
  match checker with
  | .notFn _ => .err sig
  | .fn c =>
    match performer with
    | .notFn v => .builder (chain.new c v)
    | .fn p => .handler (buildHandler c p success failure (opts.getD {}))

/-- `this.func` (src/ntil.js lines 132-134): re-enter `ntil` with the
accumulated slots; an unset `perform` slot is `undefined`, hence the
non-callable-performer path. -/
def chain.func (c : chain) : NtilResult :=
  ntil (.fn c.checker)
    (match c.perform with
     | some p => .fn p
     | none => .notFn none)
    c.success c.failure c.copts

/-- What runs synchronously inside one handler call (src/ntil.js lines
147-183): the closure initializes `wait`/`calls`, appends `next` to the
argument list and calls `invoke()` before returning, so the first
performer application always happens within the handler call.  The
events are those emitted before control returns to the caller: a
deferring performer just returns after being applied; one that calls
`next` synchronously (or throws, caught on line 175) additionally runs
the continuation inline. -/
inductive FirstAttempt where
  | throws (desc : String)
  | syncCompletes (result : List JSVal)
  | defers
deriving DecidableEq, Repr

/-- The synchronous portion of one handler call: state when control
returns to the caller, and the events emitted before that point. -/
def handlerCallSync (h : Handler) (args : List JSVal)
    (fa : FirstAttempt) : SeqState × List Event :=
  match fa with
  | .defers => (initState h, [Event.performCall args])
  | .syncCompletes r =>
      ((next h (initState h) r).1,
        Event.performCall args :: (next h (initState h) r).2)
  | .throws d =>
      ((next h (initState h) []).1,
        Event.performCall args ::
        (if h.logger then [Event.warnException h.name d] else []) ++
        (next h (initState h) []).2)


/-! ## Concrete components used by the witnesses -/

/-- A checker that accepts nothing (always returns `false`). -/
def wChecker : Checker := fun _ => JSVal.bool false

/-- A checker that accepts exactly the single result value `3`. -/
def wChecker3 : Checker := fun r => JSVal.bool (decide (r = [JSVal.num 3]))

/-- A checker returning the truthy—but not strictly `true`—number `1`. -/
def wCheckerOne : Checker := fun _ => JSVal.num 1

/-- A named performer value. -/
def wPerformer : Performer := { pname := "myFunc" }

/-- A callback value (its return value is ignored by the engine). -/
def wCallback : Callback := fun _ => JSVal.undef

/-- A concrete handler: all-rejecting checker, both callbacks supplied,
a logger, and default numeric options. -/
def wHandler : Handler :=
  buildHandler wChecker wPerformer (some wCallback) (some wCallback)
    { logger := true }

/-- A concrete handler with `maxCalls` configured as 2. -/
def wHandler2 : Handler :=
  buildHandler wChecker wPerformer (some wCallback) (some wCallback)
    { logger := true, maxCalls := some 2 }

/-- A concrete handler whose checker returns the truthy number `1`. -/
def wHandlerOne : Handler :=
  buildHandler wCheckerOne wPerformer (some wCallback) (some wCallback) {}

/-- A concrete handler accepting exactly the result `3`. -/
def wHandler3 : Handler :=
  buildHandler wChecker3 wPerformer (some wCallback) (some wCallback) {}

/-- An options object configuring `maxCalls` as 5. -/
def wOpts5 : OptsObj := { maxCalls := some 5 }

/-- An options object configuring `maxCalls` as 0. -/
def wOpts0 : OptsObj := { maxCalls := some 0 }

/-- An options object configuring `maxCalls` as -1. -/
def wOptsNeg : OptsObj := { maxCalls := some (-1) }

/-- The handler built with `maxCalls` configured as 0. -/
def wHandlerZero : Handler :=
  buildHandler wChecker wPerformer none (some wCallback) wOpts0

/-! ## Helper lemmas about the step function -/

theorem next_of_accepted (h : Handler) (st : SeqState) (r : List JSVal)
    (hc : h.checker r = JSVal.bool true) :
    next h st r =
      (st,
        (if h.logger then [Event.infoSuccess h.name] else []) ++
        (if h.success.isSome then [Event.callSuccess r] else [])) := by
  simp [next, hc]

theorem next_of_rejected_retry (h : Handler) (st : SeqState)
    (r : List JSVal) (hc : h.checker r ≠ JSVal.bool true)
    (hlt : ((st.calls + 1 : ℕ) : ℚ) < h.maxCalls) :
    next h st r =
      ({ wait := st.wait * h.waitMult, calls := st.calls + 1 },
        (if h.logger then [Event.warnRetry h.name (st.calls + 1) st.wait]
         else []) ++
        [Event.schedule (st.wait * 1000)]) := by
  simp [next, hc, hlt]
  intro hge
  push_cast at hlt
  exact absurd hlt (not_lt.mpr hge)

theorem next_of_rejected_exhaust (h : Handler) (st : SeqState)
    (r : List JSVal) (hc : h.checker r ≠ JSVal.bool true)
    (hge : h.maxCalls ≤ ((st.calls + 1 : ℕ) : ℚ)) :
    next h st r =
      ({ st with calls := st.calls + 1 },
        (if h.logger then [Event.warnExhaust h.name (st.calls + 1)]
         else []) ++
        (if h.failure.isSome then [Event.callFailure r] else [])) := by
  simp [next, hc, not_lt.mpr hge]
  intro hlt
  push_cast at hge
  exact absurd hlt (not_lt.mpr hge)

theorem next_calls_of_rejected (h : Handler) (st : SeqState)
    (r : List JSVal) (hc : h.checker r ≠ JSVal.bool true) :
    (next h st r).1.calls = st.calls + 1 := by
  rcases lt_or_le (((st.calls + 1 : ℕ) : ℚ)) h.maxCalls with hlt | hge
  · rw [next_of_rejected_retry h st r hc hlt]
  · rw [next_of_rejected_exhaust h st r hc hge]

theorem runNexts_calls_of_rejected (h : Handler) (rs : List (List JSVal)) :
    ∀ st : SeqState, (∀ r ∈ rs, h.checker r ≠ JSVal.bool true) →
    (runNexts h st rs).1.calls = st.calls + rs.length := by
  induction rs with
  | nil => intro st _; simp [runNexts]
  | cons r rs ih =>
    intro st hrej
    have hr : h.checker r ≠ JSVal.bool true := hrej r (List.mem_cons_self r rs)
    have htail : ∀ x ∈ rs, h.checker x ≠ JSVal.bool true :=
      fun x hx => hrej x (List.mem_cons_of_mem r hx)
    simp only [runNexts]
    rw [ih _ htail, next_calls_of_rejected h st r hr]
    simp [List.length_cons]
    omega

theorem runNexts_rejected_within (h : Handler) (rs : List (List JSVal)) :
    ∀ st : SeqState, (∀ r ∈ rs, h.checker r ≠ JSVal.bool true) →
    ((st.calls + rs.length : ℕ) : ℚ) < h.maxCalls →
    (runNexts h st rs).1.wait = st.wait * h.waitMult ^ rs.length ∧
    scheduledMs (runNexts h st rs).2 =
      (List.range rs.length).map (fun j => st.wait * h.waitMult ^ j * 1000) ∧
    failureCalls (runNexts h st rs).2 = [] ∧
    exhaustWarns (runNexts h st rs).2 = [] := by
  induction rs with
  | nil =>
    intro st _ _
    simp [runNexts, scheduledMs, failureCalls, exhaustWarns]
  | cons r rs ih =>
    intro st hrej hbound
    have hr : h.checker r ≠ JSVal.bool true := hrej r (List.mem_cons_self r rs)
    have htail : ∀ x ∈ rs, h.checker x ≠ JSVal.bool true :=
      fun x hx => hrej x (List.mem_cons_of_mem r hx)
    have hlt : ((st.calls + 1 : ℕ) : ℚ) < h.maxCalls := by
      refine lt_of_le_of_lt ?_ hbound
      have hle : st.calls + 1 ≤ st.calls + (r :: rs).length := by
        simp [List.length_cons]
      exact_mod_cast hle
    have hbound' : (((st.calls + 1) + rs.length : ℕ) : ℚ) < h.maxCalls := by
      have heq : (st.calls + 1) + rs.length = st.calls + (r :: rs).length := by
        simp [List.length_cons]
        omega
      rw [heq]
      exact hbound
    obtain ⟨iw, isch, ifail, iexh⟩ :=
      ih ⟨st.wait * h.waitMult, st.calls + 1⟩ htail hbound'
    simp only [runNexts]
    rw [next_of_rejected_retry h st r hr hlt]
    refine ⟨?_, ?_, ?_, ?_⟩
    · rw [iw]
      show st.wait * h.waitMult * h.waitMult ^ rs.length =
        st.wait * h.waitMult ^ (r :: rs).length
      rw [List.length_cons, pow_succ]
      ring
    · simp only [scheduledMs, List.filterMap_append] at isch ⊢
      rw [isch]
      cases hl : h.logger <;>
        · simp only [hl, List.length_cons, List.range_succ_eq_map,
            List.map_cons, List.map_map]
          have hcomp :
              (fun j => st.wait * h.waitMult ^ j * 1000) ∘ Nat.succ =
              fun j => st.wait * h.waitMult * h.waitMult ^ j * 1000 := by
            funext j
            simp only [Function.comp_apply, pow_succ]
            ring
          simp [hcomp, scheduledMs]
    · simp only [failureCalls, List.filterMap_append] at ifail ⊢
      rw [ifail]
      cases hl : h.logger <;> simp [hl, failureCalls]
    · simp only [exhaustWarns, List.filterMap_append] at iexh ⊢
      rw [iexh]
      cases hl : h.logger <;> simp [hl, exhaustWarns]

theorem runNexts_append (h : Handler) (as bs : List (List JSVal)) :
    ∀ st : SeqState,
    runNexts h st (as ++ bs) =
      ((runNexts h (runNexts h st as).1 bs).1,
        (runNexts h st as).2 ++ (runNexts h (runNexts h st as).1 bs).2) := by
  induction as with
  | nil => intro st; simp [runNexts]
  | cons a as ih =>
    intro st
    simp only [List.cons_append, runNexts, List.append_eq]
    rw [ih ((next h st a).1)]
    simp [List.append_assoc]

theorem dropExceptionWarns_next (h : Handler) (st : SeqState)
    (r : List JSVal) :
    dropExceptionWarns (next h st r).2 = (next h st r).2 := by
  by_cases hc : h.checker r = JSVal.bool true
  · rw [next_of_accepted h st r hc]
    cases hl : h.logger <;> cases hs : h.success.isSome <;>
      simp [hl, hs, dropExceptionWarns, isExceptionWarn]
  · rcases lt_or_le (((st.calls + 1 : ℕ) : ℚ)) h.maxCalls with hlt | hge
    · rw [next_of_rejected_retry h st r hc hlt]
      cases hl : h.logger <;>
        simp [hl, dropExceptionWarns, isExceptionWarn]
    · rw [next_of_rejected_exhaust h st r hc hge]
      cases hl : h.logger <;> cases hf : h.failure.isSome <;>
        simp [hl, hf, dropExceptionWarns, isExceptionWarn]

theorem performCall_not_mem_next (h : Handler) (st : SeqState)
    (r args : List JSVal) :
    Event.performCall args ∉ (next h st r).2 := by
  by_cases hc : h.checker r = JSVal.bool true
  · rw [next_of_accepted h st r hc]
    cases hl : h.logger <;> cases hs : h.success.isSome <;> simp [hl, hs]
  · rcases lt_or_le (((st.calls + 1 : ℕ) : ℚ)) h.maxCalls with hlt | hge
    · rw [next_of_rejected_retry h st r hc hlt]
      cases hl : h.logger <;> simp [hl]
    · rw [next_of_rejected_exhaust h st r hc hge]
      cases hl : h.logger <;> cases hf : h.failure.isSome <;> simp [hl, hf]

/-! ## The claims -/

/-- C1: for every handler invocation and every `k ≥ 1`, after the `k`-th
rejected result the attempt counter equals `k`; and (whenever a next
delay is scheduled, i.e. `k < maxCalls`) the delays scheduled so far are
exactly `waitSecs * waitMult ^ (i-1)` seconds for `i = 1..k` (the
`schedule` payloads are in milliseconds, `wait * 1000` as passed to
`setTimeout`), the `k`-th being `waitSecs * waitMult ^ (k-1)`: the
current wait is read to schedule the delay and only then multiplied, so
after `k` rejections the stored wait is `waitSecs * waitMult ^ k`. -/
theorem claim_C1 (h : Handler) (k : ℕ) (rs : List (List JSVal))
    (hk : 1 ≤ k) (hlen : rs.length = k)
    (hrej : ∀ r ∈ rs, h.checker r ≠ JSVal.bool true) :
    (runNexts h (initState h) rs).1.calls = k ∧
    (((k : ℕ) : ℚ) < h.maxCalls →
      scheduledMs (runNexts h (initState h) rs).2 =
        (List.range k).map (fun j => h.waitSecs * h.waitMult ^ j * 1000) ∧
      (runNexts h (initState h) rs).1.wait =
        h.waitSecs * h.waitMult ^ k) := by
  constructor
  · have hc := runNexts_calls_of_rejected h rs (initState h) hrej
    simpa [initState, hlen] using hc
  · intro hklt
    have hbound : (((initState h).calls + rs.length : ℕ) : ℚ) <
        h.maxCalls := by
      simpa [initState, hlen] using hklt
    obtain ⟨iw, isch, _, _⟩ :=
      runNexts_rejected_within h rs (initState h) hrej hbound
    subst hlen
    exact ⟨by simpa [initState] using isch, by simpa [initState] using iw⟩

/-- C1 witness: three rejections on the default configuration leave the
counter at 3, schedule delays of 1, 2 and 4 seconds, and leave the wait
at 8 seconds. -/
theorem claim_C1_witness :
    (runNexts wHandler (initState wHandler) [[], [], []]).1.calls = 3 ∧
    scheduledMs (runNexts wHandler (initState wHandler) [[], [], []]).2 =
      (List.range 3).map
        (fun j => wHandler.waitSecs * wHandler.waitMult ^ j * 1000) ∧
    (runNexts wHandler (initState wHandler) [[], [], []]).1.wait =
      wHandler.waitSecs * wHandler.waitMult ^ 3 := by
  have h := claim_C1 wHandler 3 [[], [], []] (by norm_num) (by simp)
    (by decide)
  have hb := h.2 (by norm_num [wHandler, buildHandler, jsOrNum])
  exact ⟨h.1, hb.1, hb.2⟩

/-- C2: with a resolved `maxCalls` of `m ≥ 1` (the documented resolved
values are positive integers; `0`/negative configurations are the
separately analysed edge of C4), a sequence of rejected results is
exhausted exactly at the `m`-th rejection, never before (no failure
callback, no "too many failures" warning while fewer than `m` rejections
have occurred) and never after (at the `m`-th rejection the attempt
counter equals `m`, the failure callback — if provided — receives the
last result values, and no retry is scheduled for it: only `m - 1`
delays were ever scheduled). -/
theorem claim_C2 (h : Handler) (m : ℕ) (hm : 1 ≤ m)
    (hmax : h.maxCalls = (m : ℚ)) :
    (∀ rs : List (List JSVal),
      (∀ r ∈ rs, h.checker r ≠ JSVal.bool true) → rs.length < m →
      failureCalls (runNexts h (initState h) rs).2 = [] ∧
      exhaustWarns (runNexts h (initState h) rs).2 = []) ∧
    (∀ (rs : List (List JSVal)) (rlast : List JSVal),
      (∀ r ∈ rs ++ [rlast], h.checker r ≠ JSVal.bool true) →
      (rs ++ [rlast]).length = m →
      (runNexts h (initState h) (rs ++ [rlast])).1.calls = m ∧
      failureCalls (runNexts h (initState h) (rs ++ [rlast])).2 =
        (if h.failure.isSome then [rlast] else []) ∧
      exhaustWarns (runNexts h (initState h) (rs ++ [rlast])).2 =
        (if h.logger then [m] else []) ∧
      (scheduledMs (runNexts h (initState h) (rs ++ [rlast])).2).length =
        m - 1) := by
  constructor
  · intro rs hrej hlt
    have hbound : (((initState h).calls + rs.length : ℕ) : ℚ) <
        h.maxCalls := by
      rw [hmax]
      exact_mod_cast show (initState h).calls + rs.length < m by
        simp [initState]; omega
    obtain ⟨_, _, hf, he⟩ :=
      runNexts_rejected_within h rs (initState h) hrej hbound
    exact ⟨hf, he⟩
  · intro rs rlast hrej hlen
    have hrejp : ∀ r ∈ rs, h.checker r ≠ JSVal.bool true :=
      fun r hr => hrej r (List.mem_append_left _ hr)
    have hrlast : h.checker rlast ≠ JSVal.bool true :=
      hrej rlast (List.mem_append_right _ (List.mem_cons_self _ _))
    have hlen' : rs.length = m - 1 := by
      simp only [List.length_append, List.length_cons,
        List.length_nil] at hlen
      omega
    have hbound : (((initState h).calls + rs.length : ℕ) : ℚ) <
        h.maxCalls := by
      rw [hmax]
      exact_mod_cast show (initState h).calls + rs.length < m by
        simp [initState, hlen']; omega
    obtain ⟨iw, isch, ifail, iexh⟩ :=
      runNexts_rejected_within h rs (initState h) hrejp hbound
    have icalls := runNexts_calls_of_rejected h rs (initState h) hrejp
    have hcalls1 : (runNexts h (initState h) rs).1.calls = m - 1 := by
      rw [icalls]
      simp [initState, hlen']
    have hge : h.maxCalls ≤
        ((((runNexts h (initState h) rs).1.calls + 1 : ℕ)) : ℚ) := by
      rw [hmax, hcalls1]
      exact_mod_cast show m ≤ (m - 1) + 1 by omega
    have hnext := next_of_rejected_exhaust h
      ((runNexts h (initState h) rs).1) rlast hrlast hge
    rw [runNexts_append h rs [rlast] (initState h)]
    simp only [runNexts, hnext, List.append_nil]
    refine ⟨?_, ?_, ?_, ?_⟩
    · simp only [hcalls1]
      omega
    · simp only [failureCalls, List.filterMap_append] at ifail ⊢
      rw [ifail]
      cases hl : h.logger <;> cases hfs : h.failure.isSome <;>
        simp [hl, hfs, failureCalls]
    · simp only [exhaustWarns, List.filterMap_append] at iexh ⊢
      rw [iexh]
      cases hl : h.logger <;>
        simp [hl, exhaustWarns, hcalls1, Nat.succ_pred_eq_of_pos, hm]
    · simp only [scheduledMs, List.filterMap_append] at isch ⊢
      rw [isch]
      cases hl : h.logger <;> cases hfs : h.failure.isSome <;>
        simp [hl, hfs, scheduledMs, hlen']

/-- C2 witness: with resolved `maxCalls = 2`, one rejection invokes no
failure callback, while the second rejection exhausts the sequence with
the failure callback on the last result, one warning, and a single
scheduled delay in total. -/
theorem claim_C2_witness :
    failureCalls (runNexts wHandler2 (initState wHandler2) [[]]).2 = [] ∧
    (runNexts wHandler2 (initState wHandler2)
      ([[JSVal.num 9]] ++ [[]])).1.calls = 2 ∧
    failureCalls (runNexts wHandler2 (initState wHandler2)
      ([[JSVal.num 9]] ++ [[]])).2 =
      (if wHandler2.failure.isSome then [[]] else []) ∧
    exhaustWarns (runNexts wHandler2 (initState wHandler2)
      ([[JSVal.num 9]] ++ [[]])).2 =
      (if wHandler2.logger then [2] else []) ∧
    (scheduledMs (runNexts wHandler2 (initState wHandler2)
      ([[JSVal.num 9]] ++ [[]])).2).length = 2 - 1 := by
  have h := claim_C2 wHandler2 2 (by norm_num)
    (by norm_num [wHandler2, buildHandler, jsOrNum])
  have h1 := h.1 [[]] (by decide) (by norm_num)
  have h2 := h.2 [[JSVal.num 9]] [] (by decide) (by decide)
  exact ⟨h1.1, h2.1, h2.2.1, h2.2.2.1, h2.2.2.2⟩

/-- C3: a completion is accepted iff the checker's return value is the
boolean `true` by strict identity: the attempt counter stays unchanged
iff the checker returned exactly `true`, the success callback fires iff
the checker returned exactly `true` (and a success callback exists), and
any truthy-but-not-`true` checker value (such as the number `1` or a
non-empty string) increments the counter, driving the retry loop. -/
theorem claim_C3 (h : Handler) (st : SeqState) (rv : List JSVal) :
    ((next h st rv).1.calls = st.calls ↔
      h.checker rv = JSVal.bool true) ∧
    (Event.callSuccess rv ∈ (next h st rv).2 ↔
      (h.checker rv = JSVal.bool true ∧ h.success.isSome = true)) ∧
    (truthy (h.checker rv) = true → h.checker rv ≠ JSVal.bool true →
      (next h st rv).1.calls = st.calls + 1) := by
  by_cases hc : h.checker rv = JSVal.bool true
  · rw [next_of_accepted h st rv hc]
    refine ⟨by simp [hc], ?_, fun _ hne => absurd hc hne⟩
    cases hl : h.logger <;> cases hs : h.success.isSome <;>
      simp [hl, hs, hc]
  · have hcalls := next_calls_of_rejected h st rv hc
    refine ⟨by rw [hcalls]; simp [hc], ?_, fun _ _ => hcalls⟩
    rcases lt_or_le (((st.calls + 1 : ℕ) : ℚ)) h.maxCalls with hlt | hge
    · rw [next_of_rejected_retry h st rv hc hlt]
      cases hl : h.logger <;> simp [hl, hc]
    · rw [next_of_rejected_exhaust h st rv hc hge]
      cases hl : h.logger <;> cases hf : h.failure.isSome <;>
        simp [hl, hf, hc]

/-- C3 witness: a checker returning `1` (truthy, not strictly `true`)
drives a rejection — the attempt counter is incremented. -/
theorem claim_C3_witness :
    (next wHandlerOne (initState wHandlerOne) []).1.calls =
      (initState wHandlerOne).calls + 1 := by
  exact (claim_C3 wHandlerOne (initState wHandlerOne) []).2.2
    (by decide) (by decide)

/-- C10: the engine does not enforce exactly-once completion — each call
of the continuation runs the full acceptance/rejection logic on the
current closure state: two accepted completions invoke the success
callback twice (once per result), and once the counter has reached the
exhaustion threshold, every further rejected completion invokes the
failure callback again while the counter keeps incrementing in the same
attempt state. -/
theorem claim_C10 (h : Handler) (st : SeqState) (r1 r2 : List JSVal) :
    (h.checker r1 = JSVal.bool true → h.checker r2 = JSVal.bool true →
      successCalls (runNexts h st [r1, r2]).2 =
        (if h.success.isSome then [r1, r2] else [])) ∧
    (h.maxCalls ≤ ((st.calls + 1 : ℕ) : ℚ) →
      h.checker r1 ≠ JSVal.bool true →
      failureCalls (next h st r1).2 =
        (if h.failure.isSome then [r1] else []) ∧
      (next h st r1).1.calls = st.calls + 1) := by
  constructor
  · intro h1 h2
    simp only [runNexts]
    rw [next_of_accepted h st r1 h1]
    rw [next_of_accepted h st r2 h2]
    cases hl : h.logger <;> cases hs : h.success.isSome <;>
      simp [hl, hs, successCalls, List.filterMap_append]
  · intro hge hr
    rw [next_of_rejected_exhaust h st r1 hr hge]
    cases hl : h.logger <;> cases hf : h.failure.isSome <;>
      simp [hl, hf, failureCalls, List.filterMap_append]

/-- C10 witness: two completions with the accepted result `3` invoke the
success callback twice; a rejected completion arriving when the counter
already sits at the default threshold 7 invokes the failure callback
again and pushes the counter to 8. -/
theorem claim_C10_witness :
    successCalls (runNexts wHandler3 (initState wHandler3)
        [[JSVal.num 3], [JSVal.num 3]]).2 =
      (if wHandler3.success.isSome then [[JSVal.num 3], [JSVal.num 3]]
       else []) ∧
    failureCalls (next wHandler ⟨64, 7⟩ []).2 =
      (if wHandler.failure.isSome then [[]] else []) ∧
    (next wHandler ⟨64, 7⟩ []).1.calls = 7 + 1 := by
  have h1 := (claim_C10 wHandler3 (initState wHandler3)
    [JSVal.num 3] [JSVal.num 3]).1 (by decide) (by decide)
  have h2 := (claim_C10 wHandler ⟨64, 7⟩ [] []).2
    (by norm_num [wHandler, buildHandler, jsOrNum]) (by decide)
  exact ⟨h1, h2.1, h2.2⟩

theorem dropExceptionWarns_append (a b : List Event) :
    dropExceptionWarns (a ++ b) =
      dropExceptionWarns a ++ dropExceptionWarns b := by
  simp [dropExceptionWarns]

theorem dropExceptionWarns_cons_performCall (a : List JSVal)
    (l : List Event) :
    dropExceptionWarns (Event.performCall a :: l) =
      Event.performCall a :: dropExceptionWarns l := by
  simp [dropExceptionWarns, isExceptionWarn]

theorem dropExceptionWarns_cons_warnException (n d : String)
    (l : List Event) :
    dropExceptionWarns (Event.warnException n d :: l) =
      dropExceptionWarns l := by
  simp [dropExceptionWarns, isExceptionWarn]

/-- C5: a synchronously raising performer never escapes the engine —
`invoke` catches the exception, logs a warning when a logger is present,
and hands the empty result list to the continuation; consequently a
performer that throws on every attempt produces exactly the same closure
state and, apart from the interleaved exception warnings, exactly the
same event trace (same retry bookkeeping, backoff schedule and final
failure) as one that completes every attempt with no result values. -/
theorem claim_C5 (h : Handler) (args : List JSVal) (st : SeqState)
    (ds : List String) :
    (runAttempts h args st (ds.map PerfResult.throws)).1 =
      (runAttempts h args st
        (ds.map fun _ => PerfResult.completes [])).1 ∧
    dropExceptionWarns
        (runAttempts h args st (ds.map PerfResult.throws)).2 =
      (runAttempts h args st (ds.map fun _ => PerfResult.completes [])).2 ∧
    (∀ d : String, h.logger = true →
      Event.warnException h.name d ∈
        (invoke h args st (PerfResult.throws d)).2) := by
  refine ⟨?_, ?_, ?_⟩
  · induction ds generalizing st with
    | nil => simp [runAttempts]
    | cons d ds ih =>
      simp only [List.map_cons, runAttempts, invoke]
      exact ih (next h st []).1
  · induction ds generalizing st with
    | nil => simp [runAttempts, dropExceptionWarns]
    | cons d ds ih =>
      simp only [List.map_cons, runAttempts, invoke]
      have hdrop := dropExceptionWarns_next h st []
      have htail := ih (next h st []).1
      cases hl : h.logger
      · simp [hl, dropExceptionWarns_append,
          dropExceptionWarns_cons_performCall,
          dropExceptionWarns_cons_warnException, hdrop, htail]
      · simp [hl, dropExceptionWarns_append,
          dropExceptionWarns_cons_performCall,
          dropExceptionWarns_cons_warnException, hdrop, htail]
  · intro d hl
    simp [invoke, hl]

/-- C5 witness: one throwing attempt on the default logging handler
produces the same state and (modulo the exception warning) the same
trace as one empty completion, and the warning is logged. -/
theorem claim_C5_witness :
    (runAttempts wHandler [] (initState wHandler)
        (["boom"].map PerfResult.throws)).1 =
      (runAttempts wHandler [] (initState wHandler)
        (["boom"].map fun _ => PerfResult.completes [])).1 ∧
    dropExceptionWarns (runAttempts wHandler [] (initState wHandler)
        (["boom"].map PerfResult.throws)).2 =
      (runAttempts wHandler [] (initState wHandler)
        (["boom"].map fun _ => PerfResult.completes [])).2 ∧
    Event.warnException wHandler.name "boom" ∈
      (invoke wHandler [] (initState wHandler)
        (PerfResult.throws "boom")).2 := by
  have h := claim_C5 wHandler [] (initState wHandler) ["boom"]
  exact ⟨h.1, h.2.1, h.2.2 "boom" (by decide)⟩

/-- C6: the fluent chain `exec`/`done`/`fail`/`opts` followed by `func()`
yields exactly the handler of the direct call; the builder produced by
`ntil` with only a checker starts with all slots unset; the setters (on
the threaded builder state, modelling mutation of the single instance)
commute pairwise, so they may be applied in any order or subset; and a
repeated setter overwrites the previous value (last write wins). -/
theorem claim_C6 (c : Checker) (p : Performer) (s f : Callback)
    (o : OptsObj) :
    (chain.func (((((chain.new c none).exec p).done s).fail f).opts
        (some o)) =
      ntil (.fn c) (.fn p) (some s) (some f) (some o)) ∧
    (ntil (.fn c) (.notFn none) none none none =
      .builder (chain.new c none)) ∧
    (∀ (b : chain) (p' : Performer) (s' : Callback),
      (b.exec p').done s' = (b.done s').exec p') ∧
    (∀ (b : chain) (p' : Performer) (f' : Callback),
      (b.exec p').fail f' = (b.fail f').exec p') ∧
    (∀ (b : chain) (p' : Performer) (o' : Option OptsObj),
      (b.exec p').opts o' = (b.opts o').exec p') ∧
    (∀ (b : chain) (s' f' : Callback),
      (b.done s').fail f' = (b.fail f').done s') ∧
    (∀ (b : chain) (s' : Callback) (o' : Option OptsObj),
      (b.done s').opts o' = (b.opts o').done s') ∧
    (∀ (b : chain) (f' : Callback) (o' : Option OptsObj),
      (b.fail f').opts o' = (b.opts o').fail f') ∧
    (∀ (b : chain) (p1 p2 : Performer),
      (b.exec p1).exec p2 = b.exec p2) ∧
    (∀ (b : chain) (s1 s2 : Callback),
      (b.done s1).done s2 = b.done s2) ∧
    (∀ (b : chain) (f1 f2 : Callback),
      (b.fail f1).fail f2 = b.fail f2) ∧
    (∀ (b : chain) (o1 o2 : Option OptsObj),
      (b.opts o1).opts o2 = b.opts o2) ∧
    (chain.func ((chain.new c none).exec p) =
      ntil (.fn c) (.fn p) none none none) := by
  refine ⟨rfl, rfl, ?_, ?_, ?_, ?_, ?_, ?_, ?_, ?_, ?_, ?_, rfl⟩ <;>
    intros <;> rfl

/-- C6 witness: the fully chained construction at concrete components
equals the direct five-argument call. -/
theorem claim_C6_witness :
    chain.func (((((chain.new wChecker none).exec wPerformer).done
        wCallback).fail wCallback).opts (some wOpts5)) =
      ntil (.fn wChecker) (.fn wPerformer) (some wCallback)
        (some wCallback) (some wOpts5) :=
  (claim_C6 wChecker wPerformer wCallback wCallback wOpts5).1

/-- C7: a callable checker with a non-callable second argument makes
`ntil` return a builder (not a handler) seeded with the checker and with
the second argument in the options slot; the handler later produced via
`exec` + `func` is exactly the direct-call handler over those options
(the builder's own unset success/failure slots and the dropped
third/fourth/fifth arguments included). -/
theorem claim_C7 (c : Checker) (v : Option OptsObj) (p : Performer)
    (s f : Option Callback) (o : Option OptsObj) :
    ntil (.fn c) (.notFn v) s f o = .builder (chain.new c v) ∧
    chain.func ((chain.new c v).exec p) =
      ntil (.fn c) (.fn p) none none v ∧
    (∀ ob : OptsObj, v = some ob →
      chain.func ((chain.new c v).exec p) =
        .handler (buildHandler c p none none ob)) := by
  refine ⟨rfl, rfl, ?_⟩
  rintro ob rfl
  rfl

/-- C7 witness: with a concrete options object in the performer slot,
the builder is seeded with it and `func()` builds the handler from it. -/
theorem claim_C7_witness :
    ntil (.fn wChecker) (.notFn (some wOpts5)) (some wCallback) none
        none =
      .builder (chain.new wChecker (some wOpts5)) ∧
    chain.func ((chain.new wChecker (some wOpts5)).exec wPerformer) =
      .handler (buildHandler wChecker wPerformer none none wOpts5) := by
  have h := claim_C7 wChecker (some wOpts5) wPerformer (some wCallback)
    none none
  exact ⟨h.1, h.2.2 wOpts5 rfl⟩

/-- C8: a non-callable checker makes construction fail immediately with
the thrown signature string, whatever the other arguments are — no
handler and no builder is ever returned. -/
theorem claim_C8 (v : JSVal) (performer : PerfArg)
    (s f : Option Callback) (o : Option OptsObj) :
    ntil (.notFn v) performer s f o = .err sig ∧
    sig = "Check params: function ntil(checker, performer, success, failure, opts)" ∧
    (∀ hh : Handler, ntil (.notFn v) performer s f o ≠ .handler hh) ∧
    (∀ b : chain, ntil (.notFn v) performer s f o ≠ .builder b) := by
  refine ⟨rfl, rfl, ?_, ?_⟩
  · intro hh hcontra
    exact NtilResult.noConfusion hcontra
  · intro b hcontra
    exact NtilResult.noConfusion hcontra

/-- C8 witness: a numeric checker argument yields the thrown signature
string, and in particular not a builder. -/
theorem claim_C8_witness :
    ntil (.notFn (JSVal.num 42)) (.fn wPerformer) none none none =
      .err sig ∧
    ntil (.notFn (JSVal.num 42)) (.fn wPerformer) none none none ≠
      .builder (chain.new wChecker none) := by
  have h := claim_C8 (JSVal.num 42) (.fn wPerformer) none none none
  exact ⟨h.1, h.2.2.2 _⟩

/-- C4 counterexample: with `maxCalls` configured as 0 the handler's
resolved threshold is the default 7 — `opts.maxCalls || 7` treats the
falsy 0 like an absent field — so the first rejected result schedules a
retry (the comparison `calls < maxCalls` is `1 < 7`, which holds) and
invokes no failure callback, contradicting both "fails immediately after
the first rejection with no retry ever scheduled" and "defaults are
taken only by absent option fields". -/
theorem claim_C4_counterexample :
    ntil (.fn wChecker) (.fn wPerformer) none (some wCallback)
        (some wOpts0) =
      .handler wHandlerZero ∧
    wHandlerZero.maxCalls = 7 ∧
    scheduledMs (next wHandlerZero (initState wHandlerZero) []).2 =
      [1000] ∧
    failureCalls (next wHandlerZero (initState wHandlerZero) []).2 =
      [] := by
  have hrv : wHandlerZero.checker [] ≠ JSVal.bool true := by decide
  have hlt : (((initState wHandlerZero).calls + 1 : ℕ) : ℚ) <
      wHandlerZero.maxCalls := by
    norm_num [initState, wHandlerZero, buildHandler, jsOrNum, wOpts0]
  have hnext := next_of_rejected_retry wHandlerZero
    (initState wHandlerZero) [] hrv hlt
  refine ⟨rfl, by decide, ?_, ?_⟩
  · rw [hnext]
    norm_num [scheduledMs, wHandlerZero, buildHandler, initState,
      jsOrNum, wOpts0]
    rfl
  · rw [hnext]
    norm_num [failureCalls, wHandlerZero, buildHandler, initState,
      jsOrNum, wOpts0]

/-- C4 (amended): a `maxCalls` configured as 0 is falsy, so the `||`
fallback resolves it to the default 7 exactly as if the field were
absent, and the first rejection schedules a retry; any nonzero
configured value is used as-is, and only a negative `maxCalls` makes the
comparison fail immediately after the first rejection: no retry is
scheduled, the failure callback (if provided) receives the result
values, and the counter ends at 1. -/
theorem claim_C4 (c : Checker) (p : Performer) (s f : Option Callback)
    (o : OptsObj) :
    (o.maxCalls = some 0 → (buildHandler c p s f o).maxCalls = 7) ∧
    (o.maxCalls = none → (buildHandler c p s f o).maxCalls = 7) ∧
    (∀ q : ℚ, o.maxCalls = some q → q ≠ 0 →
      (buildHandler c p s f o).maxCalls = q) ∧
    (∀ (q : ℚ) (rv : List JSVal), o.maxCalls = some q → q < 0 →
      c rv ≠ JSVal.bool true →
      scheduledMs (next (buildHandler c p s f o)
        (initState (buildHandler c p s f o)) rv).2 = [] ∧
      failureCalls (next (buildHandler c p s f o)
        (initState (buildHandler c p s f o)) rv).2 =
        (if f.isSome then [rv] else []) ∧
      (next (buildHandler c p s f o)
        (initState (buildHandler c p s f o)) rv).1.calls = 1) := by
  refine ⟨?_, ?_, ?_, ?_⟩
  · intro h0
    simp [buildHandler, jsOrNum, h0]
  · intro h0
    simp [buildHandler, jsOrNum, h0]
  · intro q hq hne
    simp [buildHandler, jsOrNum, hq, hne]
  · intro q rv hq hneg hrv
    have hmax : (buildHandler c p s f o).maxCalls = q := by
      simp [buildHandler, jsOrNum, hq, hneg.ne]
    have hrv' : (buildHandler c p s f o).checker rv ≠ JSVal.bool true :=
      hrv
    have hge : (buildHandler c p s f o).maxCalls ≤
        ((((initState (buildHandler c p s f o)).calls + 1 : ℕ)) : ℚ) := by
      rw [hmax]
      have h01 : ((initState (buildHandler c p s f o)).calls + 1 : ℕ) =
          1 := by
        simp [initState]
      rw [h01]
      push_cast
      linarith
    rw [next_of_rejected_exhaust _ _ _ hrv' hge]
    refine ⟨?_, ?_, ?_⟩
    · cases hl : o.logger <;> cases hfs : f.isSome <;>
        simp [buildHandler, hl, hfs, scheduledMs]
    · cases hl : o.logger <;> cases hfs : f.isSome <;>
        simp [buildHandler, hl, hfs, failureCalls]
    · simp [initState]

/-- C4 witness: with `maxCalls` configured as -1 (nonzero, hence used
as-is), the first rejected result schedules nothing, invokes the failure
callback, and leaves the counter at 1. -/
theorem claim_C4_witness :
    (buildHandler wChecker wPerformer none (some wCallback)
      wOptsNeg).maxCalls = -1 ∧
    scheduledMs (next (buildHandler wChecker wPerformer none
      (some wCallback) wOptsNeg) (initState (buildHandler wChecker
      wPerformer none (some wCallback) wOptsNeg)) []).2 = [] ∧
    failureCalls (next (buildHandler wChecker wPerformer none
      (some wCallback) wOptsNeg) (initState (buildHandler wChecker
      wPerformer none (some wCallback) wOptsNeg)) []).2 =
      (if (some wCallback).isSome then [[]] else []) ∧
    (next (buildHandler wChecker wPerformer none (some wCallback)
      wOptsNeg) (initState (buildHandler wChecker wPerformer none
      (some wCallback) wOptsNeg)) []).1.calls = 1 := by
  have h := claim_C4 wChecker wPerformer none (some wCallback) wOptsNeg
  have h3 := h.2.2.1 (-1) rfl (by norm_num)
  have h4 := h.2.2.2 (-1) [] rfl (by norm_num) (by decide)
  exact ⟨h3, h4.1, h4.2.1, h4.2.2⟩

/-- C9 counterexample: the handler call is not asynchronous from the
start — the source's closure body runs `args.push(next); invoke()`
before returning, so the synchronous portion of a handler call whose
performer merely defers its completion already contains the performer
invocation (the first attempt), contradicting "no performer work (not
even the first attempt) is executed synchronously within the handler
call itself". -/
theorem claim_C9_counterexample :
    (handlerCallSync wHandler [JSVal.num 1] FirstAttempt.defers).2 =
      [Event.performCall [JSVal.num 1]] ∧
    Event.performCall [JSVal.num 1] ∈
      (handlerCallSync wHandler [JSVal.num 1] FirstAttempt.defers).2 := by
  exact ⟨rfl, by decide⟩

/-- C9 (amended): the first performer invocation always happens
synchronously inside the handler call — the synchronous event trace of
every handler call begins with the performer application to the captured
arguments — and only the waits between attempts are asynchronous: the
continuation never applies the performer directly, it at most schedules
a deferred invocation, so every attempt after the first runs from a
scheduled callback rather than from the handler call itself. -/
theorem claim_C9 (h : Handler) (args : List JSVal) (fa : FirstAttempt) :
    (handlerCallSync h args fa).2.head? =
      some (Event.performCall args) ∧
    (∀ (st : SeqState) (r a : List JSVal),
      Event.performCall a ∉ (next h st r).2) := by
  constructor
  · cases fa <;> simp [handlerCallSync]
  · intro st r a
    exact performCall_not_mem_next h st r a

/-- C9 witness: the amended statement at a concrete handler call. -/
theorem claim_C9_witness :
    (handlerCallSync wHandler [] FirstAttempt.defers).2.head? =
      some (Event.performCall []) ∧
    Event.performCall [] ∉ (next wHandler (initState wHandler) []).2 := by
  exact ⟨(claim_C9 wHandler [] FirstAttempt.defers).1,
    (claim_C9 wHandler [] FirstAttempt.defers).2 (initState wHandler)
      [] []⟩
